import Mathlib

/-
Verification of the bindgen-parsing pass of autocxx
(src/engine/src/conversion/parse/parse_bindgen.rs).

The definitions below are a shallow embedding of that file.  External
collaborators whose source is not part of this repository snapshot
(the policy oracle `IncludeCppConfig`, `ParseCallbackResults`,
`known_types()`, `validate_ident_ok_for_cxx`, `generate_utilities`,
`ParseForeignMod` and the error sink `report_any_error`) are modelled
at their interface boundary, as an explicit environment of functions;
each such definition carries a note.  The `ApiVec` collection is
modelled as an insertion-ordered list of entries.
-/

set_option maxHeartbeats 1000000

namespace AutocxxParse

abbrev NamespacePath := List String

/-- Splits a C++ spelling on the `::` separator, structurally over the
character list (same observable behaviour as splitting on the two-character
separator). -/
def splitCpp : List Char → List Char → List String
  | [], cur => [String.mk cur.reverse]
  | ':' :: ':' :: rest, cur => String.mk cur.reverse :: splitCpp rest []
  | c :: rest, cur => splitCpp rest (c :: cur)

def cppNameSegments (s : String) : List String :=
  splitCpp s.data []

/-- Structural suffix test (same observable behaviour as `str::ends_with`). -/
def strEndsWith (s suffix : String) : Bool :=
  suffix.data.isSuffixOf s.data

structure QualifiedName where
  ns : NamespacePath
  id : String
deriving DecidableEq, Repr

/-- Modelled from the spec: a qualified name displays by joining its namespace
segments and final identifier (`QualifiedName::to_cpp_name`; types.rs is not in
the source snapshot). -/
def QualifiedName.toCppName (q : QualifiedName) : String :=
  String.intercalate "::" (q.ns ++ [q.id])

/-- Modelled from the spec: `QualifiedName::new_from_cpp_name` splits a C++
spelling into namespace path plus final identifier (types.rs is not in the
source snapshot). -/
def QualifiedName.newFromCppName (s : String) : QualifiedName :=
  let parts := cppNameSegments s
  ⟨parts.dropLast, parts.getLastD ""⟩

structure ApiName where
  name : QualifiedName
  cppNameOpt : Option String
deriving DecidableEq, Repr

/-- The effective C++ spelling of an API name: the recorded original C++ name
when the parse callbacks supplied one, otherwise the identifier itself. -/
def ApiName.effectiveCppName (n : ApiName) : String :=
  n.cppNameOpt.getD n.name.id

/-- Modelled from the spec: a name "resolves to a nested-type form" when its
effective C++ spelling is qualified, i.e. contains a scope separator
(`CppEffectiveName::is_nested`; not in the source snapshot). -/
def isNestedName (s : String) : Bool :=
  decide (1 < (cppNameSegments s).length)

/-- A struct field, with its type abstracted to the one predicate the pass
consults: `type_is_reference(&f.ty, true)` (type_helpers.rs is not in the
source snapshot), i.e. whether the field type is an rvalue reference. -/
structure FieldInfo where
  ident : Option String
  tyIsRvalueRef : Bool
deriving DecidableEq, Repr

structure ItemStruct where
  ident : String
  fields : List FieldInfo
deriving DecidableEq, Repr

structure ItemEnum where
  ident : String
deriving DecidableEq, Repr

/-- A Rust type expression, abstracted to the shape the pass consults for
constants: the identifiers of a path's segments. -/
inductive TypeExpr where
  | path (segments : List String)
  | other
deriving DecidableEq, Repr

structure ItemConst where
  ident : String
  ty : TypeExpr
deriving DecidableEq, Repr

structure ItemType where
  ident : String
deriving DecidableEq, Repr

inductive UseTree where
  | path (ident : String) (rest : UseTree)
  | name (ident : String)
  | rename (ident : String) (newIdent : String)
  | other
deriving DecidableEq, Repr

/-- Opaque handle for an item inside an `extern "C"` block; the pass only
forwards these to the foreign-mod collector. -/
abbrev ForeignItem := Nat

/-- Opaque handle for an `impl` block; the pass only forwards these to the
foreign-mod collector. -/
abbrev ImplBlock := Nat

inductive Item where
  | foreignMod (items : List ForeignItem)
  | struct (s : ItemStruct)
  | enumDecl (e : ItemEnum)
  | implBlock (b : ImplBlock)
  | mod (ident : String) (content : Option (List Item))
  | useDecl (tree : UseTree)
  | constDecl (c : ItemConst)
  | typeAlias (t : ItemType)
  | other

inductive ConvertErrorFromCpp where
  | invalidIdent (ident : String)
  | forwardDeclaredNestedType
  | infinitelyRecursiveTypedef (name : QualifiedName)
  | unexpectedItemInMod
  | didNotGenerateAnything (directive : String)
  | fatalAttr (attr : String)
deriving DecidableEq, Repr

structure ConvertErrorWithContext where
  err : ConvertErrorFromCpp
  ctx : Option String
deriving DecidableEq, Repr

inductive ConvertError where
  | cpp (e : ConvertErrorFromCpp)
  | rust (e : String)
deriving DecidableEq, Repr

inductive TypedefKind where
  | useTree (oldPath : List String)
  | typeDecl (item : ItemType)
deriving DecidableEq, Repr

inductive Api where
  | struct (name : ApiName) (hasRvalueReferenceFields : Bool) (item : ItemStruct)
  | enum (name : ApiName) (item : ItemEnum)
  | forwardDeclaration (name : ApiName) (err : Option ConvertErrorWithContext)
  | typedef (name : ApiName) (kind : TypedefKind) (oldTyname : Option QualifiedName)
  | const (name : ApiName) (item : ItemConst)
  | rustType (name : ApiName) (path : List String)
  | rustFn (name : ApiName) (deps : List String)
  | concreteType (name : ApiName) (cppDefinition : String)
  | externCppType (name : ApiName) (details : String) (pod : Bool)
  | subclass (name : ApiName) (superclass : QualifiedName)
  | utility (name : ApiName)
  | fnEntry (name : ApiName)
  | ignoredItem (name : ApiName) (err : ConvertErrorFromCpp) (ctx : String)
deriving DecidableEq, Repr

def Api.name : Api → QualifiedName
  | .struct n _ _ => n.name
  | .enum n _ => n.name
  | .forwardDeclaration n _ => n.name
  | .typedef n _ _ => n.name
  | .const n _ => n.name
  | .rustType n _ => n.name
  | .rustFn n _ => n.name
  | .concreteType n _ => n.name
  | .externCppType n _ _ => n.name
  | .subclass n _ => n.name
  | .utility n => n.name
  | .fnEntry n => n.name
  | .ignoredItem n _ _ => n.name

/-- Per-namespace state of the foreign-mod collector (`ParseForeignMod` is an
external collaborator; its two ingestion operations are modelled as recording
what was forwarded, in order). -/
structure ForeignModChunks where
  foreignItems : List ForeignItem
  implBlocks : List ImplBlock
deriving DecidableEq, Repr

/-- Modelled from the spec: the slice of the user configuration (policy
oracle) that this pass consults; `IncludeCppConfig` is not in the source
snapshot.  Lists are insertion-ordered, as in the source's IndexMap/IndexSet. -/
structure IncludeCppConfig where
  blocklist : List String
  podRequests : List String
  mustGenerate : List String
  externs : List (String × String)
  rustTypes : List (List String)
  subclasses : List (String × String)
  externRustFuns : List String
  concretes : List (String × String)
  excludeUtilities : Bool
deriving DecidableEq, Repr

/-- Modelled from the spec: block-list membership test by (C++-spelled) name. -/
def IncludeCppConfig.isOnBlocklist (cfg : IncludeCppConfig) (s : String) : Bool :=
  cfg.blocklist.contains s

/-- Modelled from the spec: "is this a managed-language-native type", tested by
identifier against the final identifiers of the configured rust-side paths. -/
def IncludeCppConfig.isRustType (cfg : IncludeCppConfig) (id : String) : Bool :=
  cfg.rustTypes.any (fun p => p.getLastD "" == id)

/-- The environment of external collaborators consulted by the pass:
parse-callback results, known-type queries, identifier validation, utility
generation, the foreign-mod collector's finalization, and dependency assembly
for exported rust functions.  All are modelled from the spec at their
interface boundary (their sources are not in the snapshot). -/
structure Env where
  getOriginalName : QualifiedName → Option String
  fatalAttrs : QualifiedName → Option ConvertErrorWithContext
  isKnownSubstituteType : QualifiedName → Bool
  isKnownType : QualifiedName → Bool
  validIdentForCxx : String → Bool
  utilityApis : List Api
  collectorFinished : NamespacePath → List ForeignItem → List ImplBlock → List Api
  assembleDeps : String → String → Except String (List String)

def api_name (env : Env) (ns : NamespacePath) (id : String) : ApiName :=
  ⟨⟨ns, id⟩, env.getOriginalName ⟨ns, id⟩⟩

def api_name_qualified (env : Env) (ns : NamespacePath) (id : String) :
    Except ConvertErrorWithContext ApiName :=
  if env.validIdentForCxx id then .ok (api_name env ns id)
  else .error ⟨.invalidIdent id, some id⟩

def spot_field (s : List FieldInfo) (desiredId : String) : Bool :=
  (s.filterMap (fun f => f.ident)).any (fun id => id == desiredId)

def spot_forward_declaration (s : List FieldInfo) : Bool :=
  spot_field s "_unused"

def spot_zero_length_struct (s : List FieldInfo) : Bool :=
  spot_field s "_address"

def spot_rvalue_reference_fields (s : List FieldInfo) : Bool :=
  s.any (fun f => f.tyIsRvalueRef)

/-- Modelled from the spec: the error sink (`report_any_error`) wraps a
per-declaration failure with the namespace and the offending declaration's
identifier and records a placeholder entry; failures with no context are
dropped. -/
def sinkApis (ns : NamespacePath) (e : ConvertErrorWithContext) : List Api :=
  match e.ctx with
  | some id => [.ignoredItem ⟨⟨ns, id⟩, none⟩ e.err id]
  | none => []

abbrev WalkState := List Api × ForeignModChunks

inductive ItemResult where
  | ok (st : WalkState)
  | err (e : ConvertErrorWithContext) (st : WalkState)
  | abort (msg : String)
deriving DecidableEq, Repr

inductive ModResult where
  | ok (apis : List Api)
  | abort (msg : String)
deriving DecidableEq, Repr

/-- The `Item::Use` arm of `parse_item`: walk the use-tree collecting path
segments; a rename is classified as a typedef unless it is the fixed synthetic
rename target or an infinitely recursive alias.  The two `assert!`s on the
`self::super` segment prefix (and the out-of-bounds `Vec::remove` when fewer
than two segments were collected) are modelled as `abort`. -/
def parseUseTree (env : Env) (ns : NamespacePath) (st : WalkState) :
    UseTree → List String → ItemResult
  | .path id rest, segs => parseUseTree env ns st rest (segs ++ [id])
  | .name _, _ => .ok st
  | .rename oldId newId, segs =>
    if newId == "bindgen_cchar16_t" then .ok st
    else
      match segs with
      | [] => .abort "index out of bounds"
      | [s0] =>
        if s0 == "self" then .abort "index out of bounds"
        else .abort "Path didn't start with self"
      | s0 :: s1 :: restSegs =>
        if !(s0 == "self") then .abort "Path didn't start with self"
        else if !(s1 == "super") then .abort "Path didn't start with self::super"
        else
          let newTyname : QualifiedName := ⟨ns, newId⟩
          let oldTyname : QualifiedName := ⟨restSegs, oldId⟩
          if newTyname = oldTyname then
            .err ⟨.infinitelyRecursiveTypedef newTyname, some newId⟩ st
          else
            .ok (st.1 ++ [.typedef (api_name env ns newId)
                  (.useTree (restSegs ++ [oldId])) (some oldTyname)], st.2)
  | .other, _ => .ok st

mutual

/-- Embedding of `ParseBindgen::parse_item`: classify one declaration,
threading the accumulated API entries and the per-scope collector state. -/
def parse_item (cfg : IncludeCppConfig) (env : Env) (ns : NamespacePath)
    (item : Item) (st : WalkState) : ItemResult :=
  match item with
  | .foreignMod fmItems =>
    .ok (st.1, ⟨st.2.foreignItems ++ fmItems, st.2.implBlocks⟩)
  | .struct s =>
    if strEndsWith s.ident "__bindgen_vtable" then .ok st
    else
      match api_name_qualified env ns s.ident with
      | .error e => .err e st
      | .ok name =>
        if env.isKnownSubstituteType name.name then .ok st
        else
          let err0 := env.fatalAttrs name.name
          let apiOpt : Option Api :=
            if (ns.isEmpty && cfg.isRustType s.ident) || env.isKnownType name.name then
              none
            else if spot_forward_declaration s.fields
                || (spot_zero_length_struct s.fields && err0.isSome) then
              let err1 :=
                if err0.isNone && isNestedName name.effectiveCppName then
                  some ⟨.forwardDeclaredNestedType, some s.ident⟩
                else err0
              some (.forwardDeclaration name err1)
            else
              some (.struct name (spot_rvalue_reference_fields s.fields) s)
          match apiOpt with
          | some api =>
            if !cfg.isOnBlocklist api.name.toCppName then .ok (st.1 ++ [api], st.2)
            else .ok st
          | none => .ok st
  | .enumDecl e =>
    match api_name_qualified env ns e.ident with
    | .error er => .err er st
    | .ok name =>
      let api : Api := .enum name e
      if !cfg.isOnBlocklist api.name.toCppName then .ok (st.1 ++ [api], st.2)
      else .ok st
  | .implBlock b =>
    .ok (st.1, ⟨st.2.foreignItems, st.2.implBlocks ++ [b]⟩)
  | .mod id contentOpt =>
    match contentOpt with
    | some items =>
      match parse_mod_go cfg env (ns ++ [id]) items st.1 ⟨[], []⟩ [] with
      | .ok apis => .ok (apis, st.2)
      | .abort m => .abort m
    | none => .ok st
  | .useDecl tree => parseUseTree env ns st tree []
  | .constDecl c =>
    let enumTypeNameValid :=
      match c.ty with
      | .path segs =>
        match segs.getLast? with
        | some lastSeg => env.validIdentForCxx lastSeg
        | none => true
      | .other => true
    if enumTypeNameValid then
      .ok (st.1 ++ [.const (api_name env ns c.ident) c], st.2)
    else .ok st
  | .typeAlias t =>
    .ok (st.1 ++ [.typedef (api_name env ns t.ident) (.typeDecl t) none], st.2)
  | .other => .err ⟨.unexpectedItemInMod, none⟩ st
termination_by structural item

/-- The loop body of `ParseBindgen::parse_mod_items`: process each sibling,
catching per-declaration errors into `moreApis` via the sink; afterwards append
the caught placeholders and let the collector finalize for the scope. -/
def parse_mod_go (cfg : IncludeCppConfig) (env : Env) (ns : NamespacePath)
    (items : List Item) (apis : List Api) (coll : ForeignModChunks)
    (moreApis : List Api) : ModResult :=
  match items with
  | [] => .ok (apis ++ moreApis ++ env.collectorFinished ns coll.foreignItems coll.implBlocks)
  | i :: rest =>
    match parse_item cfg env ns i (apis, coll) with
    | .ok (apis', coll') => parse_mod_go cfg env ns rest apis' coll' moreApis
    | .err e (apis', coll') =>
      parse_mod_go cfg env ns rest apis' coll' (moreApis ++ sinkApis ns e)
    | .abort m => .abort m
termination_by structural items

end

def parse_mod_items (cfg : IncludeCppConfig) (env : Env) (ns : NamespacePath)
    (items : List Item) (apis : List Api) : ModResult :=
  parse_mod_go cfg env ns items apis ⟨[], []⟩ []

inductive RootItems where
  | ok (items : Option (List Item))
  | abort (msg : String)

/-- Embedding of `ParseBindgen::find_items_in_root`: jump into the single
`mod root` wrapper; a top-level mod with any other name fails the source's
`assert!`. -/
def find_items_in_root : List Item → RootItems
  | [] => .ok none
  | .mod id content :: rest =>
    if id == "root" then
      match content with
      | some items => .ok (some items)
      | none => find_items_in_root rest
    else .abort "assertion failed: root_mod.ident == root"
  | _ :: rest => find_items_in_root rest

/-- The `extern_rust_funs` loop of `add_apis_from_config`: each configured
exported function yields a RustFn entry with assembled dependencies; a failure
aborts the config merge. -/
def addRustFunApis (env : Env) (src : String) (funs : List String)
    (apis : List Api) : Except String (List Api) :=
  match funs with
  | [] => .ok apis
  | f :: rest =>
    match env.assembleDeps f src with
    | .error e => .error e
    | .ok deps => addRustFunApis env src rest (apis ++ [.rustFn ⟨⟨[], f⟩, none⟩ deps])

/-- First-occurrence deduplication, as performed by collecting into an
insertion-ordered set. -/
def insertionDedup {α : Type} [DecidableEq α] (seen : List α) : List α → List α
  | [] => []
  | a :: rest =>
    if a ∈ seen then insertionDedup seen rest
    else a :: insertionDedup (seen ++ [a]) rest

/-- Embedding of `ParseBindgen::add_apis_from_config`: subclasses, exported
rust functions, deduplicated rust types, then concrete template
instantiations. -/
def add_apis_from_config (cfg : IncludeCppConfig) (env : Env) (src : String)
    (apis : List Api) : Except String (List Api) :=
  let apis1 := apis ++ cfg.subclasses.map (fun sc =>
    .subclass ⟨⟨[], sc.1⟩, none⟩ (QualifiedName.newFromCppName sc.2))
  match addRustFunApis env src cfg.externRustFuns apis1 with
  | .error e => .error e
  | .ok apis2 =>
    let uniqueRustTypes := insertionDedup [] cfg.rustTypes
    let apis3 := apis2 ++ uniqueRustTypes.map (fun p =>
      .rustType ⟨⟨[], p.getLastD ""⟩, none⟩ p)
    .ok (apis3 ++ cfg.concretes.map (fun cr => .concreteType ⟨⟨[], cr.2⟩, none⟩ cr.1))

/-- Insertion into an insertion-ordered map keyed by qualified name (an
existing key keeps its position and has its value replaced). -/
def indexMapInsert (k : QualifiedName) (v : Api) :
    List (QualifiedName × Api) → List (QualifiedName × Api)
  | [] => [(k, v)]
  | (k', v') :: rest =>
    if k = k' then (k, v) :: rest else (k', v') :: indexMapInsert k v rest

/-- One native-type-override replacement: its qualified name, and the
ExternCppType entry carrying the plain-old-data flag. -/
def mkReplacement (cfg : IncludeCppConfig) (p : String × String) :
    QualifiedName × Api :=
  let qn := QualifiedName.newFromCppName p.1
  let pod := cfg.podRequests.contains qn.toCppName
  (qn, .externCppType ⟨qn, none⟩ p.2 pod)

def replacementsOf (cfg : IncludeCppConfig) : List (QualifiedName × Api) :=
  cfg.externs.foldl
    (fun m p => indexMapInsert (mkReplacement cfg p).1 (mkReplacement cfg p).2 m) []

def containsKey (m : List (QualifiedName × Api)) (k : QualifiedName) : Bool :=
  m.any (fun kv => kv.1 = k)

/-- Embedding of `ParseBindgen::replace_extern_cpp_types`: retain entries whose
qualified name is not overridden, then append one ExternCppType entry per
override. -/
def replace_extern_cpp_types (cfg : IncludeCppConfig) (apis : List Api) :
    List Api :=
  let reps := replacementsOf cfg
  apis.filter (fun a => !containsKey reps a.name) ++ reps.map Prod.snd

def apiCppNames (apis : List Api) : List String :=
  apis.map (fun a => a.name.toCppName)

def firstUnmetDirective (cfg : IncludeCppConfig) (apis : List Api) : Option String :=
  cfg.mustGenerate.find? (fun d => !(apiCppNames apis).contains d)

/-- Embedding of `ParseBindgen::confirm_all_generate_directives_obeyed`. -/
def confirm_all_generate_directives_obeyed (cfg : IncludeCppConfig)
    (apis : List Api) : Except ConvertErrorFromCpp Unit :=
  match firstUnmetDirective cfg apis with
  | some d => .error (.didNotGenerateAnything d)
  | none => .ok ()

inductive PassResult where
  | ok (apis : List Api)
  | error (e : ConvertError)
  | abort (msg : String)
deriving DecidableEq, Repr

/-- The pass up to and including the walk: locate the root mod, seed
utilities, merge config-derived entries, then walk the declaration tree. -/
def walk_phase (cfg : IncludeCppConfig) (env : Env) (items : List Item)
    (src : String) : PassResult :=
  match find_items_in_root items with
  | .abort m => .abort m
  | .ok rootItems =>
    let apis0 : List Api := if !cfg.excludeUtilities then env.utilityApis else []
    match add_apis_from_config cfg env src apis0 with
    | .error e => .error (.rust e)
    | .ok apis1 =>
      match parse_mod_items cfg env [] (rootItems.getD []) apis1 with
      | .abort m => .abort m
      | .ok apis2 => .ok apis2

/-- Embedding of `ParseBindgen::parse_items`: after the walk, confirm the
generate directives, then perform the native-type-override substitution. -/
def parse_items (cfg : IncludeCppConfig) (env : Env) (items : List Item)
    (src : String) : PassResult :=
  match walk_phase cfg env items src with
  | .abort m => .abort m
  | .error e => .error e
  | .ok apis =>
    match confirm_all_generate_directives_obeyed cfg apis with
    | .error e => .error (.cpp e)
    | .ok _ => .ok (replace_extern_cpp_types cfg apis)

/-! Helper observations on results, and concrete instances used to settle the
claims on explicit inputs. -/

/-- The API entries carried by a non-aborting item result; `none` when the
walker aborted (the source's panic). -/
def ItemResult.apisOut : ItemResult → Option (List Api)
  | .ok st => some st.1
  | .err _ st => some st.1
  | .abort _ => none

def ItemResult.isAbort : ItemResult → Bool
  | .abort _ => true
  | _ => false

def ModResult.isAbort : ModResult → Bool
  | .abort _ => true
  | _ => false

/-- Builds the use-tree `seg0::seg1::...::(old as new)`, the shape syn gives
an import-rename declaration. -/
def mkUseChain : List String → String → String → UseTree
  | [], oldId, newId => .rename oldId newId
  | s :: rest, oldId, newId => .path s (mkUseChain rest oldId newId)

/-- Whether a collected segment list begins with `self` followed by `super`. -/
def hasSelfSuperHead : List String → Bool
  | s0 :: s1 :: _ => s0 == "self" && s1 == "super"
  | _ => false

/-- Recognizes the NativeTypeOverride entry for a given qualified name whose
plain-old-data flag agrees with the configuration's request set. -/
def isOverrideEntryFor (cfg : IncludeCppConfig) (qn : QualifiedName) : Api → Bool
  | .externCppType n _ pod => n = (⟨qn, none⟩ : ApiName)
      && pod = cfg.podRequests.contains qn.toCppName
  | _ => false

def repKeys (m : List (QualifiedName × Api)) : List QualifiedName :=
  m.map Prod.fst

/-- Invariant of the replacement map built by the substitution pass: every
value is the override entry for its own key. -/
def ReplGood (cfg : IncludeCppConfig) (kv : QualifiedName × Api) : Prop :=
  ∃ d, kv.2 = .externCppType ⟨kv.1, none⟩ d (cfg.podRequests.contains kv.1.toCppName)

/-- An environment in which every external collaborator answers trivially. -/
def trivEnv : Env where
  getOriginalName := fun _ => none
  fatalAttrs := fun _ => none
  isKnownSubstituteType := fun _ => false
  isKnownType := fun _ => false
  validIdentForCxx := fun _ => true
  utilityApis := []
  collectorFinished := fun _ _ _ => []
  assembleDeps := fun _ _ => .ok []

def emptyConfig : IncludeCppConfig where
  blocklist := []
  podRequests := []
  mustGenerate := []
  externs := []
  rustTypes := []
  subclasses := []
  externRustFuns := []
  concretes := []
  excludeUtilities := true

/-- A configuration whose only must-generate directive is satisfied solely by
a native-type override. -/
def c1cfg : IncludeCppConfig :=
  { emptyConfig with mustGenerate := ["Widget"], externs := [("Widget", "det")] }

/-- A configuration with one unmet must-generate directive. -/
def c1wcfg : IncludeCppConfig :=
  { emptyConfig with mustGenerate := ["A"] }

def c2cfg : IncludeCppConfig :=
  { emptyConfig with externs := [("Widget", "det")], podRequests := ["Widget"] }

def c2apis : List Api :=
  [.struct ⟨⟨[], "Widget"⟩, none⟩ false ⟨"Widget", [⟨some "f", false⟩]⟩]

/-- A configuration blocking `Widget` while also declaring it as a
native-type override. -/
def c3cfg : IncludeCppConfig :=
  { emptyConfig with blocklist := ["Widget"], externs := [("Widget", "det")] }

def c3items : List Item :=
  [.mod "root" (some [.struct ⟨"Widget", [⟨some "f", false⟩]⟩])]

/-- An environment whose identifier validation rejects the name `Fwd`. -/
def c4env : Env :=
  { trivEnv with validIdentForCxx := fun s => !(s == "Fwd") }

/-- An environment in which `S` has a nested original C++ name and also a
pending fatal-attribute error. -/
def c5env : Env :=
  { trivEnv with
    getOriginalName := fun q => if q = ⟨[], "S"⟩ then some "Outer::S" else none
    fatalAttrs := fun q =>
      if q = ⟨[], "S"⟩ then some ⟨.fatalAttr "exclude", some "S"⟩ else none }

/-- An environment in which `S` has a nested original C++ name and no pending
error. -/
def c5okEnv : Env :=
  { trivEnv with
    getOriginalName := fun q => if q = ⟨[], "S"⟩ then some "Outer::S" else none }

/-- An environment whose identifier validation rejects the name `Bad`. -/
def c7env : Env :=
  { trivEnv with validIdentForCxx := fun s => !(s == "Bad") }

def c7const : ItemConst := ⟨"C", .path ["Bad"]⟩

/-! Helper lemmas. -/

/-- Walking a built use-chain collects exactly its leading segments before
reaching the rename leaf. -/
theorem parseUseTree_mkUseChain (env : Env) (ns : NamespacePath) (st : WalkState)
    (oldId newId : String) :
    ∀ (segs acc : List String),
      parseUseTree env ns st (mkUseChain segs oldId newId) acc =
        parseUseTree env ns st (.rename oldId newId) (acc ++ segs)
  | [], acc => by simp [mkUseChain]
  | s :: rest, acc => by
    simp only [mkUseChain, parseUseTree,
      parseUseTree_mkUseChain env ns st oldId newId rest (acc ++ [s])]
    simp

/-- Keys of the replacement map after an insertion: an existing key keeps the
key list unchanged, a new key is appended. -/
theorem repKeys_indexMapInsert (k : QualifiedName) (v : Api)
    (m : List (QualifiedName × Api)) :
    repKeys (indexMapInsert k v m) =
      if k ∈ repKeys m then repKeys m else repKeys m ++ [k] := by
  induction m with
  | nil => simp [indexMapInsert, repKeys]
  | cons kv rest ih =>
    obtain ⟨k', v'⟩ := kv
    by_cases hk : k = k'
    · subst hk; simp [indexMapInsert, repKeys]
    · simp only [indexMapInsert, if_neg hk, repKeys, List.map_cons] at ih ⊢
      rw [ih]
      by_cases hm : k ∈ List.map Prod.fst rest
      · simp [hm, hk]
      · simp [hm, hk]

/-- Every entry of the map after an insertion is the inserted pair or an
original entry. -/
theorem mem_indexMapInsert (k : QualifiedName) (v : Api)
    (m : List (QualifiedName × Api)) :
    ∀ kv' ∈ indexMapInsert k v m, kv' = (k, v) ∨ kv' ∈ m := by
  induction m with
  | nil => simp [indexMapInsert]
  | cons kv rest ih =>
    obtain ⟨k', v'⟩ := kv
    intro kv' hkv'
    by_cases hk : k = k'
    · subst hk
      simp only [indexMapInsert, if_pos rfl] at hkv'
      cases hkv' with
      | head => exact .inl rfl
      | tail _ hx => exact .inr (List.mem_cons_of_mem _ hx)
    · simp only [indexMapInsert, if_neg hk] at hkv'
      cases hkv' with
      | head => exact .inr (List.mem_cons_self _ _)
      | tail _ hx =>
        rcases ih kv' hx with h' | h'
        · exact .inl h'
        · exact .inr (List.mem_cons_of_mem _ h')

/-- Invariants of the replacement map built by folding insertions: keys are
distinct, every value is the override entry for its key, and the key set is
exactly the qualified names of the configured overrides. -/
theorem replacements_go_spec (cfg : IncludeCppConfig) :
    ∀ (l : List (String × String)) (acc : List (QualifiedName × Api)),
      (repKeys acc).Nodup → (∀ kv ∈ acc, ReplGood cfg kv) →
      (repKeys (l.foldl (fun m p =>
          indexMapInsert (mkReplacement cfg p).1 (mkReplacement cfg p).2 m) acc)).Nodup
      ∧ (∀ kv ∈ l.foldl (fun m p =>
          indexMapInsert (mkReplacement cfg p).1 (mkReplacement cfg p).2 m) acc,
          ReplGood cfg kv)
      ∧ (∀ q, q ∈ repKeys (l.foldl (fun m p =>
          indexMapInsert (mkReplacement cfg p).1 (mkReplacement cfg p).2 m) acc) ↔
          q ∈ repKeys acc ∨ q ∈ l.map (fun p => QualifiedName.newFromCppName p.1))
  | [], acc, hn, hg => by
    refine ⟨hn, hg, fun q => ?_⟩
    simp
  | p :: rest, acc, hn, hg => by
    simp only [List.foldl_cons]
    have hkeyeq : (mkReplacement cfg p).1 = QualifiedName.newFromCppName p.1 := by
      simp [mkReplacement]
    have hnins : (repKeys (indexMapInsert (mkReplacement cfg p).1
        (mkReplacement cfg p).2 acc)).Nodup := by
      rw [repKeys_indexMapInsert]
      split
      · exact hn
      · next hmem =>
          exact List.Nodup.append hn (List.nodup_singleton _)
            (by simpa [List.disjoint_singleton] using hmem)
    have hgins : ∀ kv ∈ indexMapInsert (mkReplacement cfg p).1
        (mkReplacement cfg p).2 acc, ReplGood cfg kv := by
      intro kv hkv
      rcases mem_indexMapInsert _ _ _ kv hkv with h | h
      · subst h
        exact ⟨p.2, by simp [mkReplacement]⟩
      · exact hg kv h
    obtain ⟨hn', hg', hmem'⟩ := replacements_go_spec cfg rest
      (indexMapInsert (mkReplacement cfg p).1 (mkReplacement cfg p).2 acc)
      hnins hgins
    refine ⟨hn', hg', fun q => ?_⟩
    rw [hmem' q, repKeys_indexMapInsert, hkeyeq]
    by_cases hmem : QualifiedName.newFromCppName p.1 ∈ repKeys acc
    · rw [if_pos hmem]
      simp only [List.map_cons, List.mem_cons]
      constructor
      · rintro (h | h)
        · exact .inl h
        · exact .inr (.inr h)
      · rintro (h | h | h)
        · exact .inl h
        · exact .inl (by rw [h]; exact hmem)
        · exact .inr h
    · rw [if_neg hmem]
      simp only [List.map_cons, List.mem_cons, List.mem_append,
        List.mem_singleton]
      constructor
      · rintro ((h | h | h) | h)
        · exact .inl h
        · exact .inr (.inl h)
        · cases h
        · exact .inr (.inr h)
      · rintro (h | h | h)
        · exact .inl (.inl h)
        · exact .inl (.inr (.inl h))
        · exact .inr h

/-- Bool-level key-membership agrees with membership in the key list. -/
theorem containsKey_iff (m : List (QualifiedName × Api)) (k : QualifiedName) :
    containsKey m k = true ↔ k ∈ repKeys m := by
  simp [containsKey, repKeys]

/-- Counting entries with a given qualified name among the values of a map
with distinct keys whose values are named by their keys. -/
theorem countP_values (qn : QualifiedName) :
    ∀ (m : List (QualifiedName × Api)), (repKeys m).Nodup →
      (∀ kv ∈ m, Api.name kv.2 = kv.1) →
      (m.map Prod.snd).countP (fun a => Api.name a = qn) =
        if qn ∈ repKeys m then 1 else 0
  | [], _, _ => by simp [repKeys]
  | kv :: rest, hn, hname => by
    have hn' : kv.1 ∉ repKeys rest ∧ (repKeys rest).Nodup := by
      rw [show repKeys (kv :: rest) = kv.1 :: repKeys rest from rfl,
        List.nodup_cons] at hn
      exact hn
    have hkv : Api.name kv.2 = kv.1 := hname kv (List.mem_cons_self _ _)
    have ih := countP_values qn rest hn'.2
      (fun kv' h => hname kv' (List.mem_cons_of_mem _ h))
    rw [show (kv :: rest).map Prod.snd = kv.2 :: rest.map Prod.snd from rfl,
      List.countP_cons, ih]
    by_cases hq : kv.1 = qn
    · have h1 : qn ∉ repKeys rest := fun hx => hn'.1 (by rw [hq]; exact hx)
      have h2 : qn ∈ repKeys (kv :: rest) := by
        rw [show repKeys (kv :: rest) = kv.1 :: repKeys rest from rfl, hq]
        exact List.mem_cons_self _ _
      simp [h1, h2, hkv, hq]
    · have h2 : (qn ∈ repKeys (kv :: rest)) ↔ qn ∈ repKeys rest := by
        rw [show repKeys (kv :: rest) = kv.1 :: repKeys rest from rfl,
          List.mem_cons]
        constructor
        · rintro (h | h)
          · exact absurd h.symm hq
          · exact h
        · exact fun h => .inr h
      have hpredf : Api.name kv.2 ≠ qn := by rw [hkv]; exact hq
      by_cases hm : qn ∈ repKeys rest
      · simp [h2, hm, hpredf]
      · simp [h2, hm, hpredf]

/-! Claim theorems. -/

/-- Claim C9: the pass is deterministic — for a fixed declaration tree and
fixed configuration (and fixed external collaborators), two runs of
`parse_items` produce the same result. -/
theorem c9_pass_deterministic (cfg cfg' : IncludeCppConfig) (env env' : Env)
    (items items' : List Item) (src src' : String)
    (hc : cfg = cfg') (he : env = env') (hi : items = items') (hs : src = src') :
    parse_items cfg env items src = parse_items cfg' env' items' src' := by
  subst hc; subst he; subst hi; subst hs; rfl

/-- Witness for C9 at a concrete input. -/
theorem c9_pass_deterministic_witness :
    parse_items emptyConfig trivEnv [] "" = parse_items emptyConfig trivEnv [] "" :=
  c9_pass_deterministic emptyConfig emptyConfig trivEnv trivEnv [] [] "" "" rfl rfl rfl rfl

/-- Claim C1 (amended): the directive-verification gate runs after the walk
but BEFORE the native-type-override substitution — once the walk completes
with a model, the pass fails with `didNotGenerateAnything` naming the first
must-generate directive absent from the PRE-substitution model, and otherwise
succeeds with the substituted model. -/
theorem c1_directive_gate_precedes_substitution (cfg : IncludeCppConfig)
    (env : Env) (items : List Item) (src : String) (apis : List Api)
    (h : walk_phase cfg env items src = .ok apis) :
    parse_items cfg env items src =
      (match firstUnmetDirective cfg apis with
       | some d => .error (.cpp (.didNotGenerateAnything d))
       | none => .ok (replace_extern_cpp_types cfg apis)) := by
  simp only [parse_items, h, confirm_all_generate_directives_obeyed]
  cases firstUnmetDirective cfg apis <;> rfl

/-- Witness for C1's amended theorem at a concrete input. -/
theorem c1_directive_gate_precedes_substitution_witness :
    parse_items c1wcfg trivEnv [] "" =
      (match firstUnmetDirective c1wcfg [] with
       | some d => .error (.cpp (.didNotGenerateAnything d))
       | none => .ok (replace_extern_cpp_types c1wcfg [])) :=
  c1_directive_gate_precedes_substitution c1wcfg trivEnv [] "" [] (by decide)

/-- Counterexample to C1 as stated: with a must-generate directive satisfied
only by a native-type override, the post-substitution model does contain the
directive's name, yet the pass fails with `didNotGenerateAnything` — so the
gate cannot be running after the substitution. -/
theorem c1_gate_after_substitution_refuted :
    walk_phase c1cfg trivEnv [] "" = .ok []
    ∧ (apiCppNames (replace_extern_cpp_types c1cfg [])).contains "Widget" = true
    ∧ parse_items c1cfg trivEnv [] "" =
        .error (.cpp (.didNotGenerateAnything "Widget")) := by decide

/-- Counterexample to C3 as stated: with struct `Widget` block-listed, the
walker drops it, but a native-type override of the same name still puts an
entry with qualified name `Widget` into the final model. -/
theorem c3_blocklist_name_reappears :
    c3cfg.isOnBlocklist (QualifiedName.mk [] "Widget").toCppName = true
    ∧ parse_items c3cfg trivEnv c3items "" =
        .ok [.externCppType ⟨⟨[], "Widget"⟩, none⟩ "det" false]
    ∧ (apiCppNames [.externCppType ⟨⟨[], "Widget"⟩, none⟩ "det" false]).contains
        "Widget" = true := by decide

/-- Counterexample to C4 as stated: a struct whose only field is the
`_unused` marker, with none of the claim's skip conditions holding, still
yields no ForwardDeclaration entry when its identifier fails output-language
validation — the declaration errors out instead. -/
theorem c4_invalid_ident_no_forward_declaration :
    strEndsWith "Fwd" "__bindgen_vtable" = false
    ∧ c4env.isKnownSubstituteType ⟨[], "Fwd"⟩ = false
    ∧ emptyConfig.isRustType "Fwd" = false
    ∧ c4env.isKnownType ⟨[], "Fwd"⟩ = false
    ∧ emptyConfig.isOnBlocklist (QualifiedName.mk [] "Fwd").toCppName = false
    ∧ spot_forward_declaration [⟨some "_unused", false⟩] = true
    ∧ parse_item emptyConfig c4env []
        (.struct ⟨"Fwd", [⟨some "_unused", false⟩]⟩) ([], ⟨[], []⟩)
        = .err ⟨.invalidIdent "Fwd", some "Fwd"⟩ ([], ⟨[], []⟩) := by decide

/-- Counterexample to C5 as stated: a forward declaration whose name resolves
to a nested-type form but which already carries a pending fatal-attribute
error keeps the original error — the dedicated nested-type error does NOT
replace it. -/
theorem c5_pending_fatal_error_kept :
    isNestedName ((api_name c5env [] "S").effectiveCppName) = true
    ∧ c5env.fatalAttrs ⟨[], "S"⟩ = some ⟨.fatalAttr "exclude", some "S"⟩
    ∧ parse_item emptyConfig c5env []
        (.struct ⟨"S", [⟨some "_unused", false⟩]⟩) ([], ⟨[], []⟩)
        = .ok ([.forwardDeclaration ⟨⟨[], "S"⟩, some "Outer::S"⟩
            (some ⟨.fatalAttr "exclude", some "S"⟩)], ⟨[], []⟩)
    ∧ ((⟨.fatalAttr "exclude", some "S"⟩ : ConvertErrorWithContext)
        ≠ ⟨.forwardDeclaredNestedType, some "S"⟩) := by decide

/-- The forward-declaration branch of the struct rule, fully characterized:
under the non-skip conditions, the entry pushed is a ForwardDeclaration whose
error is the dedicated nested-type error exactly when no error was already
pending and the name is nested, and the pending error otherwise. -/
theorem parse_item_struct_fd (cfg : IncludeCppConfig) (env : Env)
    (ns : NamespacePath) (s : ItemStruct) (st : WalkState)
    (hvt : strEndsWith s.ident "__bindgen_vtable" = false)
    (hvalid : env.validIdentForCxx s.ident = true)
    (hsub : env.isKnownSubstituteType ⟨ns, s.ident⟩ = false)
    (hskip : ((ns.isEmpty && cfg.isRustType s.ident)
      || env.isKnownType ⟨ns, s.ident⟩) = false)
    (hfd : (spot_forward_declaration s.fields
      || (spot_zero_length_struct s.fields
          && (env.fatalAttrs ⟨ns, s.ident⟩).isSome)) = true)
    (hblock : cfg.isOnBlocklist (QualifiedName.mk ns s.ident).toCppName = false) :
    parse_item cfg env ns (.struct s) st =
      .ok (st.1 ++ [.forwardDeclaration (api_name env ns s.ident)
        (if (env.fatalAttrs ⟨ns, s.ident⟩).isNone
            && isNestedName (api_name env ns s.ident).effectiveCppName then
          some ⟨.forwardDeclaredNestedType, some s.ident⟩
        else env.fatalAttrs ⟨ns, s.ident⟩)], st.2) := by
  simp [parse_item, api_name_qualified, api_name, Api.name,
    hvt, hvalid, hsub, hskip, hfd, hblock]

/-- Claim C2: for a qualified name present both as a walker-produced entry and
in the native-type-override configuration, the final model after substitution
contains exactly one entry with that qualified name, and it is the
NativeTypeOverride (ExternCppType) variant whose plain-old-data flag equals
membership of the name in the plain-old-data request set. -/
theorem c2_override_supersedes_parse (cfg : IncludeCppConfig) (apis : List Api)
    (cppDef details : String)
    (hmem : (cppDef, details) ∈ cfg.externs)
    (hwalk : QualifiedName.newFromCppName cppDef ∈ apis.map Api.name) :
    ((replace_extern_cpp_types cfg apis).countP
        (fun a => Api.name a = QualifiedName.newFromCppName cppDef) = 1)
    ∧ ((replace_extern_cpp_types cfg apis).filter
        (fun a => Api.name a = QualifiedName.newFromCppName cppDef)).all
        (isOverrideEntryFor cfg (QualifiedName.newFromCppName cppDef)) = true := by
  obtain ⟨hnodup, hgood, hmemkeys⟩ :=
    replacements_go_spec cfg cfg.externs [] (by simp [repKeys]) (by simp)
  have hqn : QualifiedName.newFromCppName cppDef ∈ repKeys (replacementsOf cfg) := by
    rw [replacementsOf, hmemkeys]
    exact .inr (List.mem_map.mpr ⟨(cppDef, details), hmem, rfl⟩)
  have hname : ∀ kv ∈ replacementsOf cfg, Api.name kv.2 = kv.1 := by
    intro kv hk
    obtain ⟨d, hd⟩ := hgood kv (by rw [replacementsOf] at hk; exact hk)
    rw [hd]
    rfl
  have hfilter0 : ∀ a ∈ apis.filter
      (fun a => !containsKey (replacementsOf cfg) a.name),
      ¬(Api.name a = QualifiedName.newFromCppName cppDef) := by
    intro a ha hqe
    have h2 := (List.mem_filter.mp ha).2
    rw [Bool.not_eq_true'] at h2
    rw [hqe] at h2
    rw [← containsKey_iff] at hqn
    rw [hqn] at h2
    cases h2
  have hnodup' : (repKeys (replacementsOf cfg)).Nodup := by
    rw [replacementsOf]; exact hnodup
  constructor
  · rw [replace_extern_cpp_types, List.countP_append]
    have h1 : (apis.filter
        (fun a => !containsKey (replacementsOf cfg) a.name)).countP
        (fun a => Api.name a = QualifiedName.newFromCppName cppDef) = 0 := by
      rw [List.countP_eq_zero]
      intro a ha
      simpa using hfilter0 a ha
    rw [h1, countP_values _ _ hnodup' hname, if_pos hqn]
  · rw [replace_extern_cpp_types, List.all_eq_true]
    intro a ha
    have hmf := List.mem_filter.mp ha
    have hn : Api.name a = QualifiedName.newFromCppName cppDef := by
      simpa using hmf.2
    rcases List.mem_append.mp hmf.1 with hleft | hright
    · exact absurd hn (hfilter0 a hleft)
    · obtain ⟨kv, hkv, hsnd⟩ := List.mem_map.mp hright
      obtain ⟨d, hd⟩ := hgood kv (by rw [replacementsOf] at hkv; exact hkv)
      have hk1 : kv.1 = QualifiedName.newFromCppName cppDef := by
        rw [← hsnd, hd] at hn
        simpa [Api.name] using hn
      rw [← hsnd, hd, hk1]
      simp [isOverrideEntryFor]

/-- Witness for C2 at a concrete input: a parsed struct `Widget` also
configured as a pod-requested override. -/
theorem c2_override_supersedes_parse_witness :
    ((replace_extern_cpp_types c2cfg c2apis).countP
        (fun a => Api.name a = QualifiedName.newFromCppName "Widget") = 1)
    ∧ ((replace_extern_cpp_types c2cfg c2apis).filter
        (fun a => Api.name a = QualifiedName.newFromCppName "Widget")).all
        (isOverrideEntryFor c2cfg (QualifiedName.newFromCppName "Widget")) = true :=
  c2_override_supersedes_parse c2cfg c2apis "Widget" "det" (by decide) (by decide)

/-- Claim C3 (amended): a struct or enum declaration whose qualified name is
on the block list contributes no entry of its own to the model — the walker
leaves the accumulated entries unchanged for that declaration (entries of
other provenance may still carry the same qualified name). -/
theorem c3_blocklisted_decl_never_inserted (cfg : IncludeCppConfig) (env : Env)
    (ns : NamespacePath) (item : Item) (st : WalkState) (id : String)
    (hitem : (∃ s : ItemStruct, s.ident = id ∧ item = .struct s)
      ∨ (∃ e : ItemEnum, e.ident = id ∧ item = .enumDecl e))
    (hblock : cfg.isOnBlocklist (QualifiedName.mk ns id).toCppName = true) :
    (parse_item cfg env ns item st).apisOut = some st.1 := by
  rcases hitem with ⟨s, hid, rfl⟩ | ⟨e, hid, rfl⟩ <;> subst hid
  · by_cases h1 : strEndsWith s.ident "__bindgen_vtable" = true
    · simp [parse_item, h1, ItemResult.apisOut]
    · by_cases h2 : env.validIdentForCxx s.ident = true
      · by_cases h3 : env.isKnownSubstituteType ⟨ns, s.ident⟩ = true
        · simp [parse_item, api_name_qualified, api_name, h1, h2, h3,
            ItemResult.apisOut]
        · by_cases h4 : ((ns.isEmpty && cfg.isRustType s.ident)
              || env.isKnownType ⟨ns, s.ident⟩) = true
          · simp [parse_item, api_name_qualified, api_name, h1, h2, h3, h4,
              ItemResult.apisOut]
          · by_cases h5 : (spot_forward_declaration s.fields
                || (spot_zero_length_struct s.fields
                    && (env.fatalAttrs ⟨ns, s.ident⟩).isSome)) = true
            · simp [parse_item, api_name_qualified, api_name, Api.name, h1, h2,
                h3, h4, h5, hblock, ItemResult.apisOut]
            · simp [parse_item, api_name_qualified, api_name, Api.name, h1, h2,
                h3, h4, h5, hblock, ItemResult.apisOut]
      · simp [parse_item, api_name_qualified, h1, h2, ItemResult.apisOut]
  · by_cases h2 : env.validIdentForCxx e.ident = true
    · simp [parse_item, api_name_qualified, api_name, Api.name, h2, hblock,
        ItemResult.apisOut]
    · simp [parse_item, api_name_qualified, h2, ItemResult.apisOut]

/-- Witness for C3's amended theorem at a concrete input: the block-listed
struct `Widget` leaves the model untouched. -/
theorem c3_blocklisted_decl_never_inserted_witness :
    (parse_item c3cfg trivEnv []
      (.struct ⟨"Widget", [⟨some "f", false⟩]⟩) ([], ⟨[], []⟩)).apisOut
      = some [] :=
  c3_blocklisted_decl_never_inserted c3cfg trivEnv []
    (.struct ⟨"Widget", [⟨some "f", false⟩]⟩) ([], ⟨[], []⟩) "Widget"
    (Or.inl ⟨⟨"Widget", [⟨some "f", false⟩]⟩, rfl, rfl⟩) (by decide)

/-- Claim C4 (amended): a struct declaration that is not skipped (not a
vtable struct, name passes output-language identifier validation, not a
known/substitute type, not a root-scope managed-native or known type, not
block-listed) and whose only field is the `_unused` marker yields a
ForwardDeclaration entry and never a Struct entry. -/
theorem c4_unused_marker_yields_forward_declaration (cfg : IncludeCppConfig)
    (env : Env) (ns : NamespacePath) (s : ItemStruct) (st : WalkState)
    (hfields : s.fields.map FieldInfo.ident = [some "_unused"])
    (hvt : strEndsWith s.ident "__bindgen_vtable" = false)
    (hvalid : env.validIdentForCxx s.ident = true)
    (hsub : env.isKnownSubstituteType ⟨ns, s.ident⟩ = false)
    (hskip : ((ns.isEmpty && cfg.isRustType s.ident)
      || env.isKnownType ⟨ns, s.ident⟩) = false)
    (hblock : cfg.isOnBlocklist (QualifiedName.mk ns s.ident).toCppName = false) :
    ∃ e, parse_item cfg env ns (.struct s) st =
      .ok (st.1 ++ [.forwardDeclaration (api_name env ns s.ident) e], st.2) := by
  have hfd : spot_forward_declaration s.fields = true := by
    cases hf : s.fields with
    | nil => rw [hf] at hfields; simp at hfields
    | cons f t =>
      rw [hf] at hfields
      simp only [List.map_cons, List.cons.injEq] at hfields
      simp [spot_forward_declaration, spot_field, hfields.1]
  exact ⟨_, parse_item_struct_fd cfg env ns s st hvt hvalid hsub hskip
    (by simp [hfd]) hblock⟩

/-- Witness for C4's amended theorem at a concrete input. -/
theorem c4_unused_marker_yields_forward_declaration_witness :
    ∃ e, parse_item emptyConfig trivEnv []
        (.struct ⟨"Fwd", [⟨some "_unused", false⟩]⟩) ([], ⟨[], []⟩) =
      .ok (([] : List Api) ++ [.forwardDeclaration (api_name trivEnv [] "Fwd") e],
        ⟨[], []⟩) :=
  c4_unused_marker_yields_forward_declaration emptyConfig trivEnv []
    ⟨"Fwd", [⟨some "_unused", false⟩]⟩ ([], ⟨[], []⟩)
    (by decide) (by decide) (by decide) (by decide) (by decide) (by decide)

/-- Claim C5 (amended): a struct classified as a forward declaration carries
the dedicated forward-declared-nested-type error exactly when no error was
already pending and its name resolves to a nested-type form; an already
pending (fatal-attribute) error is kept, not replaced. -/
theorem c5_nested_error_only_when_no_pending (cfg : IncludeCppConfig)
    (env : Env) (ns : NamespacePath) (s : ItemStruct) (st : WalkState)
    (hvt : strEndsWith s.ident "__bindgen_vtable" = false)
    (hvalid : env.validIdentForCxx s.ident = true)
    (hsub : env.isKnownSubstituteType ⟨ns, s.ident⟩ = false)
    (hskip : ((ns.isEmpty && cfg.isRustType s.ident)
      || env.isKnownType ⟨ns, s.ident⟩) = false)
    (hfd : (spot_forward_declaration s.fields
      || (spot_zero_length_struct s.fields
          && (env.fatalAttrs ⟨ns, s.ident⟩).isSome)) = true)
    (hblock : cfg.isOnBlocklist (QualifiedName.mk ns s.ident).toCppName = false) :
    parse_item cfg env ns (.struct s) st =
      .ok (st.1 ++ [.forwardDeclaration (api_name env ns s.ident)
        (if (env.fatalAttrs ⟨ns, s.ident⟩).isNone
            && isNestedName (api_name env ns s.ident).effectiveCppName then
          some ⟨.forwardDeclaredNestedType, some s.ident⟩
        else env.fatalAttrs ⟨ns, s.ident⟩)], st.2) :=
  parse_item_struct_fd cfg env ns s st hvt hvalid hsub hskip hfd hblock

/-- Witness for C5's amended theorem at a concrete input: nested name, no
pending error, so the dedicated nested-type error is attached. -/
theorem c5_nested_error_only_when_no_pending_witness :
    parse_item emptyConfig c5okEnv []
        (.struct ⟨"S", [⟨some "_unused", false⟩]⟩) ([], ⟨[], []⟩) =
      .ok (([] : List Api) ++ [.forwardDeclaration (api_name c5okEnv [] "S")
        (if (c5okEnv.fatalAttrs ⟨[], "S"⟩).isNone
            && isNestedName (api_name c5okEnv [] "S").effectiveCppName then
          some ⟨.forwardDeclaredNestedType, some "S"⟩
        else c5okEnv.fatalAttrs ⟨[], "S"⟩)], ⟨[], []⟩) :=
  c5_nested_error_only_when_no_pending emptyConfig c5okEnv []
    ⟨"S", [⟨some "_unused", false⟩]⟩ ([], ⟨[], []⟩)
    (by decide) (by decide) (by decide) (by decide) (by decide) (by decide)

/-- Claim C10: for an import-rename that is not the fixed synthetic rename
target, if the collected path segments begin with `self` followed by `super`
the two segment-removal assertions never abort, while a rename whose path
lacks this prefix aborts the walker — and the abort propagates through the
scope loop, ending the whole pass rather than being recorded as a
per-declaration error. -/
theorem c10_rename_path_assertions (cfg : IncludeCppConfig) (env : Env)
    (ns : NamespacePath) (apis : List Api) (coll : ForeignModChunks)
    (oldId newId : String) (segs : List String) (restItems : List Item)
    (moreApis : List Api)
    (hnew : (newId == "bindgen_cchar16_t") = false) :
    (hasSelfSuperHead segs = true →
      (parse_item cfg env ns (.useDecl (mkUseChain segs oldId newId))
        (apis, coll)).isAbort = false)
    ∧ (hasSelfSuperHead segs = false →
      (parse_item cfg env ns (.useDecl (mkUseChain segs oldId newId))
        (apis, coll)).isAbort = true
      ∧ (parse_mod_go cfg env ns
          (.useDecl (mkUseChain segs oldId newId) :: restItems)
          apis coll moreApis).isAbort = true) := by
  have hitem : parse_item cfg env ns (.useDecl (mkUseChain segs oldId newId))
      (apis, coll) = parseUseTree env ns (apis, coll) (.rename oldId newId) segs := by
    simp only [parse_item, parseUseTree_mkUseChain, List.nil_append]
  constructor
  · intro hp
    rw [hitem]
    cases segs with
    | nil => simp [hasSelfSuperHead] at hp
    | cons s0 t =>
      cases t with
      | nil => simp [hasSelfSuperHead] at hp
      | cons s1 rest =>
        simp only [hasSelfSuperHead, Bool.and_eq_true, beq_iff_eq] at hp
        obtain ⟨h0, h1⟩ := hp
        subst h0; subst h1
        rcases eq_or_ne (⟨ns, newId⟩ : QualifiedName) ⟨rest, oldId⟩ with he | he
        · simp [parseUseTree, hnew, he, ItemResult.isAbort]
        · simp [parseUseTree, hnew, he, ItemResult.isAbort]
  · intro hp
    have habort : ∃ m, parse_item cfg env ns
        (.useDecl (mkUseChain segs oldId newId)) (apis, coll) = .abort m := by
      rw [hitem]
      cases segs with
      | nil => exact ⟨"index out of bounds", by simp [parseUseTree, hnew]⟩
      | cons s0 t =>
        cases t with
        | nil =>
          by_cases h0 : (s0 == "self") = true
          · exact ⟨"index out of bounds", by simp [parseUseTree, hnew, h0]⟩
          · have h0' : (s0 == "self") = false := by simpa using h0
            exact ⟨"Path didn't start with self",
              by simp [parseUseTree, hnew, h0']⟩
        | cons s1 rest =>
          by_cases h0 : (s0 == "self") = true
          · by_cases h1 : (s1 == "super") = true
            · simp [hasSelfSuperHead, h0, h1] at hp
            · have h1' : (s1 == "super") = false := by simpa using h1
              exact ⟨"Path didn't start with self::super",
                by simp [parseUseTree, hnew, h0, h1']⟩
          · have h0' : (s0 == "self") = false := by simpa using h0
            exact ⟨"Path didn't start with self",
              by simp [parseUseTree, hnew, h0']⟩
    obtain ⟨m, hm⟩ := habort
    refine ⟨by simp [hm, ItemResult.isAbort], ?_⟩
    simp only [parse_mod_go, hm]
    rfl

/-- Witness for C10 at a concrete input: a rename whose single collected
segment is not `self` aborts the walker and the scope loop. -/
theorem c10_rename_path_assertions_witness :
    (hasSelfSuperHead ["oops"] = true →
      (parse_item emptyConfig trivEnv []
        (.useDecl (mkUseChain ["oops"] "A" "B")) ([], ⟨[], []⟩)).isAbort = false)
    ∧ (hasSelfSuperHead ["oops"] = false →
      (parse_item emptyConfig trivEnv []
        (.useDecl (mkUseChain ["oops"] "A" "B")) ([], ⟨[], []⟩)).isAbort = true
      ∧ (parse_mod_go emptyConfig trivEnv []
          (.useDecl (mkUseChain ["oops"] "A" "B") :: ([] : List Item))
          [] ⟨[], []⟩ ([] : List Api)).isAbort = true) :=
  c10_rename_path_assertions emptyConfig trivEnv [] [] ⟨[], []⟩ "A" "B"
    ["oops"] [] [] (by decide)

/-- Claim C6 (amended): an import-rename that is not the fixed synthetic
rename target (`bindgen_cchar16_t`) and whose resolved original path, after
stripping the `self::super` prefix, equals its new qualified name fails with
the infinitely-recursive-typedef error and leaves the state unchanged, so no
Typedef entry is inserted. -/
theorem c6_self_alias_rejected_unless_synthetic (cfg : IncludeCppConfig)
    (env : Env) (ns : NamespacePath) (st : WalkState) (oldId newId : String)
    (restSegs : List String)
    (hnew : (newId == "bindgen_cchar16_t") = false)
    (heq : (⟨ns, newId⟩ : QualifiedName) = ⟨restSegs, oldId⟩) :
    parse_item cfg env ns
        (.useDecl (mkUseChain ("self" :: "super" :: restSegs) oldId newId)) st =
      .err ⟨.infinitelyRecursiveTypedef ⟨ns, newId⟩, some newId⟩ st := by
  simp only [parse_item, parseUseTree_mkUseChain, List.nil_append]
  simp [parseUseTree, hnew, heq]

/-- Witness for C6's amended theorem at a concrete input. -/
theorem c6_self_alias_rejected_unless_synthetic_witness :
    parse_item emptyConfig trivEnv []
        (.useDecl (mkUseChain ["self", "super"] "A" "A")) ([], ⟨[], []⟩) =
      .err ⟨.infinitelyRecursiveTypedef ⟨[], "A"⟩, some "A"⟩ ([], ⟨[], []⟩) :=
  c6_self_alias_rejected_unless_synthetic emptyConfig trivEnv [] ([], ⟨[], []⟩)
    "A" "A" [] (by decide) rfl

/-- Counterexample to C6 as stated: a rename to the fixed synthetic target
`bindgen_cchar16_t` whose resolved original path equals its new qualified name
silently succeeds with no error and no Typedef entry. -/
theorem c6_synthetic_rename_silent :
    (⟨([] : List String), "bindgen_cchar16_t"⟩ : QualifiedName)
      = ⟨([] : List String), "bindgen_cchar16_t"⟩
    ∧ parse_item emptyConfig trivEnv []
        (.useDecl (mkUseChain ["self", "super"] "bindgen_cchar16_t" "bindgen_cchar16_t"))
        ([], ⟨[], []⟩) = .ok ([], ⟨[], []⟩) :=
  ⟨rfl, by decide⟩

/-- Claim C7: a constant whose declared type's final path-segment identifier
is illegal for the output language is silently dropped — no Const entry and no
error — while a constant whose identifier is legal yields a Const entry. -/
theorem c7_const_entry_iff_legal_type_ident (cfg : IncludeCppConfig) (env : Env)
    (ns : NamespacePath) (c : ItemConst) (st : WalkState)
    (segs : List String) (lastSeg : String)
    (hty : c.ty = .path segs) (hlast : segs.getLast? = some lastSeg) :
    (env.validIdentForCxx lastSeg = false →
      parse_item cfg env ns (.constDecl c) st = .ok st)
    ∧ (env.validIdentForCxx lastSeg = true →
      parse_item cfg env ns (.constDecl c) st =
        .ok (st.1 ++ [.const (api_name env ns c.ident) c], st.2)) := by
  constructor <;> intro h <;> simp [parse_item, hty, hlast, h]

/-- Witness for C7 at a concrete input (type identifier `Bad` rejected by
validation). -/
theorem c7_const_entry_iff_legal_type_ident_witness :
    (c7env.validIdentForCxx "Bad" = false →
      parse_item emptyConfig c7env [] (.constDecl c7const) ([], ⟨[], []⟩)
        = .ok ([], ⟨[], []⟩))
    ∧ (c7env.validIdentForCxx "Bad" = true →
      parse_item emptyConfig c7env [] (.constDecl c7const) ([], ⟨[], []⟩) =
        .ok (([] : List Api) ++ [.const (api_name c7env [] c7const.ident) c7const],
          ⟨[], []⟩)) :=
  c7_const_entry_iff_legal_type_ident emptyConfig c7env [] c7const ([], ⟨[], []⟩)
    ["Bad"] "Bad" rfl rfl

/-- Claim C8: an error raised while classifying one declaration is captured —
handed to the sink with its context and recorded alongside — and the walk
continues with the remaining sibling declarations of the scope. -/
theorem c8_error_captured_walk_continues (cfg : IncludeCppConfig) (env : Env)
    (ns : NamespacePath) (item : Item) (rest : List Item) (apis : List Api)
    (coll : ForeignModChunks) (moreApis : List Api)
    (e : ConvertErrorWithContext) (st' : WalkState)
    (h : parse_item cfg env ns item (apis, coll) = .err e st') :
    parse_mod_go cfg env ns (item :: rest) apis coll moreApis =
      parse_mod_go cfg env ns rest st'.1 st'.2 (moreApis ++ sinkApis ns e) := by
  obtain ⟨apis', coll'⟩ := st'
  simp only [parse_mod_go, h]

/-- Witness for C8 at a concrete input: an unexpected item errors, and the
walk proceeds to the next sibling. -/
theorem c8_error_captured_walk_continues_witness :
    parse_mod_go emptyConfig trivEnv [] (Item.other :: [.typeAlias ⟨"T"⟩]) []
        ⟨[], []⟩ [] =
      parse_mod_go emptyConfig trivEnv [] [.typeAlias ⟨"T"⟩] [] ⟨[], []⟩
        ([] ++ sinkApis [] ⟨.unexpectedItemInMod, none⟩) :=
  c8_error_captured_walk_continues emptyConfig trivEnv [] Item.other
    [.typeAlias ⟨"T"⟩] [] ⟨[], []⟩ [] ⟨.unexpectedItemInMod, none⟩
    ([], ⟨[], []⟩) (by decide)

end AutocxxParse
